import Mathlib

/-!
Shallow embedding of the reconciliation engine of src/data_processor.py
(process_paytm_data, process_razorpay_data, process_shopify_data,
match_orders, combine_and_format_data), followed by theorems settling
the specification claims.

Modelling conventions:
* Monetary cells are integers in the smallest currency unit, so pandas'
  exact decimal equality is integer equality.
* A raw CSV cell is modelled by its parse outcome (`RawCell`, `RawDate`):
  `pd.to_numeric(..., errors="coerce")` maps an unparseable cell to a
  missing value (`none`, pandas NaN); `pd.to_datetime` without
  `errors="coerce"` raises on an unparseable cell, with it the cell is
  coerced to missing (NaT).
* Missing values (NaN/NaT/None) propagate through arithmetic and compare
  unequal to everything, as in pandas.
* Dates are day indices (`Nat`); `TDate` stores the calendar date, which is
  what `.date()` extracts for matching.
-/

/-- A raw numeric CSV cell, modelled by its parse outcome: `num q` parses to
`q`, `bad s` is a cell `pd.to_numeric` cannot parse. -/
inductive RawCell where
  | num (q : Int)
  | bad (s : String)
deriving DecidableEq

/-- A raw date CSV cell, modelled by its parse outcome. -/
inductive RawDate where
  | valid (d : Nat)
  | bad (s : String)
deriving DecidableEq

/-- Embeds pandas `pd.to_numeric(x, errors="coerce")`: unparseable cells
become missing (NaN). -/
def to_numeric : RawCell → Option Int
  | .num q => some q
  | .bad _ => none

/-- Embeds pandas `pd.to_datetime(x, format=...)` WITHOUT `errors="coerce"`
(as in `process_paytm_data`, line 23): an unparseable cell raises, aborting
the whole call. -/
def to_datetime_strict : RawDate → Except String Nat
  | .valid d => .ok d
  | .bad s => .error ("time data " ++ s ++ " does not match format")

/-- Embeds pandas `pd.to_datetime(x, errors="coerce")` (as in
`process_razorpay_data` line 58 and `process_shopify_data` line 87):
an unparseable cell becomes NaT. -/
def to_datetime_coerce : RawDate → Option Nat
  | .valid d => some d
  | .bad _ => none

/-- NaN-propagating addition on possibly-missing numbers. -/
def optAdd : Option Int → Option Int → Option Int
  | some a, some b => some (a + b)
  | _, _ => none

/-- NaN-propagating subtraction on possibly-missing numbers. -/
def optSub : Option Int → Option Int → Option Int
  | some a, some b => some (a - b)
  | _, _ => none

/-- Pandas equality on possibly-missing numbers: NaN compares unequal to
everything, including NaN. -/
def optEq : Option Int → Option Int → Bool
  | some a, some b => a == b
  | _, _ => false

/-- Pandas equality on possibly-missing dates: NaT compares unequal to
everything, including NaT. -/
def dateEq : Option Nat → Option Nat → Bool
  | some a, some b => a == b
  | _, _ => false

/-- A canonical transaction row, the columns `process_paytm_data` /
`process_razorpay_data` produce and `match_orders` / `combine_and_format_data`
consume: TDate, Date, Platform, Type, Order Amt, Fee, Debit, Credit,
Order ID, Party Information 1-3.  `date` (the settled date) is kept as the
raw string, as in the source. -/
structure Txn where
  tdate : Option Nat
  date : String
  platform : String
  kind : String
  orderAmt : Option Int
  fee : Option Int
  debit : Option Int
  credit : Option Int
  orderId : Option Nat
  party1 : Option String
  party2 : Option String
  party3 : Option String
deriving DecidableEq

/-- An input row of the Paytm CSV (the columns `process_paytm_data` selects). -/
structure PaytmRow where
  transaction_date : RawDate
  settled_date : String
  transaction_type : String
  amount : RawCell
  commission : RawCell
  gst : RawCell
deriving DecidableEq

/-- Embeds line 20 of `process_paytm_data`:
`.replace({"ACQUIRING": "payment", "REFUND": "refund"})` — any other label
is left unchanged. -/
def paytmTypeMap (s : String) : String :=
  if s = "ACQUIRING" then "payment" else if s = "REFUND" then "refund" else s

/-- One row of `process_paytm_data` (lines 15-41): numeric coercion of
amount/commission/gst, type mapping, STRICT datetime parse of
transaction_date (raises on failure), fee = commission + gst,
debit/credit per type, match columns initialised to None. -/
def paytmRowTxn (r : PaytmRow) : Except String Txn :=
  match to_datetime_strict r.transaction_date with
  | .error e => .error e
  | .ok d =>
    let amt := to_numeric r.amount
    let fee := optAdd (to_numeric r.commission) (to_numeric r.gst)
    let ty := paytmTypeMap r.transaction_type
    .ok { tdate := some d
          date := r.settled_date
          platform := "PayTm"
          kind := ty
          orderAmt := amt
          fee := fee
          debit := if ty = "refund" then optSub amt fee else some 0
          credit := if ty = "payment" then optSub amt fee else some 0
          orderId := none
          party1 := none
          party2 := none
          party3 := none }

/-- Embeds `process_paytm_data` (lines 6-43).  The result is `Except`
because the strict `pd.to_datetime` on line 23 raises on any unparseable
transaction_date, aborting the whole call. -/
def process_paytm_data : List PaytmRow → Except String (List Txn)
  | [] => .ok []
  | r :: rs =>
    match paytmRowTxn r, process_paytm_data rs with
    | .error e, _ => .error e
    | .ok t, .ok ts => .ok (t :: ts)
    | .ok _, .error e => .error e

/-- An input row of the Razorpay CSV (the columns `process_razorpay_data`
selects).  `fee_excl_tax` stands for the column "fee (exclusive tax)". -/
structure RazorpayRow where
  payment_captured_at : RawDate
  settled_at : String
  transaction_entity : String
  amount : RawCell
  fee_excl_tax : RawCell
  tax : RawCell
deriving DecidableEq

/-- One row of `process_razorpay_data` (lines 45-77): numeric coercion,
COERCED datetime parse of payment_captured_at (bad cells become NaT),
Type copied from transaction_entity UNMAPPED (line 61), fee = fee + tax,
debit/credit per type, match columns initialised to None. -/
def razorpayRowTxn (r : RazorpayRow) : Txn :=
  let amt := to_numeric r.amount
  let fee := optAdd (to_numeric r.fee_excl_tax) (to_numeric r.tax)
  let ty := r.transaction_entity
  { tdate := to_datetime_coerce r.payment_captured_at
    date := r.settled_at
    platform := "Razorpay"
    kind := ty
    orderAmt := amt
    fee := fee
    debit := if ty = "refund" then optSub amt fee else some 0
    credit := if ty = "payment" then optSub amt fee else some 0
    orderId := none
    party1 := none
    party2 := none
    party3 := none }

/-- Embeds `process_razorpay_data` (lines 45-77): a total, row-wise map —
never aborts. -/
def process_razorpay_data (rows : List RazorpayRow) : List Txn :=
  rows.map razorpayRowTxn

/-- An input row of a Shopify orders export (the columns
`process_shopify_data` selects).  `total = none` models an empty/NaN
Total cell. -/
structure ShopifyInRow where
  name : Nat
  total : Option Int
  billing_name : String
  billing_street : String
  billing_company : String
  paid_at : RawDate
deriving DecidableEq

/-- An order candidate in the pool produced by `process_shopify_data`:
Name, Total, Billing Name/Street/Company, Paid at (as a coerced date). -/
structure ShopifyRow where
  name : Nat
  total : Option Int
  billing_name : String
  billing_street : String
  billing_company : String
  paid_at : Option Nat
deriving DecidableEq

/-- Candidate-pool order: ascending by Name (the order id). -/
def shopifyNameLe (a b : ShopifyRow) : Prop := a.name ≤ b.name

instance : DecidableRel shopifyNameLe := fun a b => Nat.decLe a.name b.name

/-- Embeds `process_shopify_data` (lines 79-95): coerce "Paid at"
(line 87), drop rows whose Total is missing (line 90), select columns and
return the pool sorted ascending by Name (line 95).  The per-file
"orders_export" filename filter is upstream plumbing and not modelled;
rows of all accepted files are given concatenated. -/
def process_shopify_data (rows : List ShopifyInRow) : List ShopifyRow :=
  List.insertionSort shopifyNameLe
    ((rows.filter (fun r => r.total.isSome)).map
      (fun r => { name := r.name
                  total := r.total
                  billing_name := r.billing_name
                  billing_street := r.billing_street
                  billing_company := r.billing_company
                  paid_at := to_datetime_coerce r.paid_at }))

/-- The two mutable claim sets of `match_orders` (lines 100-101):
`paytm_used_names` and `razorpay_used_names`.  Note they are selected by
the row's Type, not by which dataframe is being processed. -/
structure MatchState where
  paytmUsed : List Nat
  razorpayUsed : List Nat
deriving DecidableEq

/-- Embeds the candidate filter of lines 105-108 / 119-122: pool rows with
Total equal to the row's Order Amt and Paid-at date equal to the row's
TDate date.  pandas filtering preserves pool order. -/
def matchingRows (pool : List ShopifyRow) (row : Txn) : List ShopifyRow :=
  pool.filter (fun s => optEq s.total row.orderAmt && dateEq s.paid_at row.tdate)

/-- Embeds the `for ... if name not in used: ...; break` loop of lines
110-117 / 124-131: the first matching candidate whose Name is unclaimed. -/
def firstUnclaimed (cands : List ShopifyRow) (used : List Nat) : Option ShopifyRow :=
  cands.find? (fun s => !(used.contains s.name))

/-- Annotation of a matched row (lines 112-115 / 126-129): set Order ID and
the three Party Information fields from the claimed candidate. -/
def annotate (row : Txn) (s : ShopifyRow) : Txn :=
  { row with orderId := some s.name
             party1 := some s.billing_name
             party2 := some s.billing_street
             party3 := some s.billing_company }

/-- Embeds `match_order_id_and_party_info` (lines 103-132).  A "payment"
row with unset Order ID claims through `paytm_used_names`; a "refund" row
with unset Order ID claims through `razorpay_used_names`; any other row is
returned unchanged.  The chosen candidate's Name is added to the
corresponding set. -/
def matchOrderIdAndPartyInfo (pool : List ShopifyRow) (st : MatchState) (row : Txn) :
    Txn × MatchState :=
  if row.kind = "payment" ∧ row.orderId = none then
    match firstUnclaimed (matchingRows pool row) st.paytmUsed with
    | some s => (annotate row s, { st with paytmUsed := st.paytmUsed ++ [s.name] })
    | none => (row, st)
  else if row.kind = "refund" ∧ row.orderId = none then
    match firstUnclaimed (matchingRows pool row) st.razorpayUsed with
    | some s => (annotate row s, { st with razorpayUsed := st.razorpayUsed ++ [s.name] })
    | none => (row, st)
  else (row, st)

/-- Embeds `df.apply(match_order_id_and_party_info, axis=1)`: the row
function applied to each row in order, threading the claim sets. -/
def processRows (pool : List ShopifyRow) (st : MatchState) :
    List Txn → List Txn × MatchState
  | [] => ([], st)
  | row :: rows =>
    let p := matchOrderIdAndPartyInfo pool st row
    let q := processRows pool p.2 rows
    (p.1 :: q.1, q.2)

/-- Embeds `match_orders` (lines 97-143): process the Paytm rows, then the
Razorpay rows with the same claim sets, then return both annotated row sets
together with the pool rows whose Name is in neither claim set
(lines 138-141). -/
def match_orders (paytm_txns razorpay_txns : List Txn) (shopify_pool : List ShopifyRow) :
    List Txn × List Txn × List ShopifyRow :=
  let p := processRows shopify_pool ⟨[], []⟩ paytm_txns
  let r := processRows shopify_pool p.2 razorpay_txns
  let unused := shopify_pool.filter
    (fun s => !(r.2.paytmUsed.contains s.name) && !(r.2.razorpayUsed.contains s.name))
  (p.1, r.1, unused)

/-- Lexicographic strict order on character lists by code point, as Python
compares strings. -/
def lexLt : List Char → List Char → Bool
  | [], [] => false
  | [], _ :: _ => true
  | _ :: _, [] => false
  | a :: as, b :: bs => decide (a.toNat < b.toNat) || (decide (a = b) && lexLt as bs)

/-- Lexicographic strict order on strings by code point. -/
def strLt (a b : String) : Bool := lexLt a.data b.data

/-- Missing-last order on optional order ids, pandas
`sort_values(..., na_position="last")` (the default): any value sorts
before a missing one. -/
def optIdLe : Option Nat → Option Nat → Bool
  | _, none => true
  | none, some _ => false
  | some a, some b => decide (a ≤ b)

/-- Lexicographic combination of a strict order on the first component with
an order on the second. -/
def lexB {α β : Type} [DecidableEq α] (ltA : α → α → Bool) (leB : β → β → Bool)
    (p q : α × β) : Bool :=
  ltA p.1 q.1 || (decide (p.1 = q.1) && leB p.2 q.2)

/-- The composite sort key of `combine_and_format_data` line 148:
(Date, Platform, Type, Order ID). -/
def sortKey (t : Txn) : String × String × String × Option Nat :=
  (t.date, t.platform, t.kind, t.orderId)

/-- Order on the composite sort key: lexicographic, strings by code point,
missing Order ID last. -/
def keyLe (a b : String × String × String × Option Nat) : Bool :=
  lexB strLt (lexB strLt (lexB strLt optIdLe)) a b

/-- Sort order of the final ledger, `sort_values(by=["Date", "Platform",
"Type", "Order ID"])` with pandas' default missing-last placement. -/
def txnLe (a b : Txn) : Prop := keyLe (sortKey a) (sortKey b) = true

instance : DecidableRel txnLe := fun a b => Bool.decEq (keyLe (sortKey a) (sortKey b)) true

/-- A row of the final ledger (the projection of line 151-153): Sr. No.,
Date, Platform, Type, Order Amt, Fee, Debit, Credit, Order ID,
Party Information 1-3.  TDate is dropped. -/
structure FinalRow where
  srNo : Nat
  date : String
  platform : String
  kind : String
  orderAmt : Option Int
  fee : Option Int
  debit : Option Int
  credit : Option Int
  orderId : Option Nat
  party1 : Option String
  party2 : Option String
  party3 : Option String
deriving DecidableEq

/-- Projection of a transaction to a ledger row with a given Sr. No. -/
def finalRow (n : Nat) (t : Txn) : FinalRow :=
  { srNo := n
    date := t.date
    platform := t.platform
    kind := t.kind
    orderAmt := t.orderAmt
    fee := t.fee
    debit := t.debit
    credit := t.credit
    orderId := t.orderId
    party1 := t.party1
    party2 := t.party2
    party3 := t.party3 }

/-- Embeds `combine_and_format_data` (lines 145-153): concatenate the two
annotated row sets, sort by (Date, Platform, Type, Order ID), assign
Sr. No. = 1..N in sorted order, project to the output columns. -/
def combine_and_format_data (paytm_txns razorpay_txns : List Txn) : List FinalRow :=
  let sorted := List.insertionSort txnLe (paytm_txns ++ razorpay_txns)
  (List.enumFrom 1 sorted).map (fun p => finalRow p.1 p.2)

/-- Order ids carried (as Order ID) by output transactions of kind `k`. -/
def claimedOf (k : String) (ts : List Txn) : List Nat :=
  ts.filterMap (fun t => if t.kind = k then t.orderId else none)

/-- Fields of a transaction other than Order ID and the three Party
Information fields. -/
def frameEq (t u : Txn) : Prop :=
  t.tdate = u.tdate ∧ t.date = u.date ∧ t.platform = u.platform ∧ t.kind = u.kind ∧
  t.orderAmt = u.orderAmt ∧ t.fee = u.fee ∧ t.debit = u.debit ∧ t.credit = u.credit

/-- The claim-set state left behind after `match_orders` has processed the
Paytm rows and then the Razorpay rows (the contents of `paytm_used_names`
and `razorpay_used_names` at line 137). -/
def finalState (paytm_txns razorpay_txns : List Txn) (pool : List ShopifyRow) :
    MatchState :=
  (processRows pool (processRows pool ⟨[], []⟩ paytm_txns).2 razorpay_txns).2

/-- Example order candidate: order id 1, total 10, paid on day 5. -/
def cand1 : ShopifyRow :=
  { name := 1, total := some 10, billing_name := "A", billing_street := "S",
    billing_company := "C", paid_at := some 5 }

/-- Copy of `cand1` (same order id 1) with a different billing name. -/
def cand1dup : ShopifyRow := { cand1 with billing_name := "B" }

/-- Example order candidate with order id 2, otherwise like `cand1`. -/
def cand2 : ShopifyRow := { cand1 with name := 2 }

/-- Example Paytm payment transaction matching `cand1` (amount 10, day 5). -/
def payTx : Txn :=
  { tdate := some 5, date := "d", platform := "PayTm", kind := "payment",
    orderAmt := some 10, fee := some 2, debit := some 0, credit := some 8,
    orderId := none, party1 := none, party2 := none, party3 := none }

/-- Razorpay payment transaction also matching `cand1`. -/
def payTxR : Txn := { payTx with platform := "Razorpay" }

/-- Paytm refund transaction also matching `cand1`. -/
def refTxP : Txn := { payTx with kind := "refund", debit := some 8, credit := some 0 }

/-- Razorpay refund transaction also matching `cand1`. -/
def refTxR : Txn :=
  { refTxP with platform := "Razorpay" }

/-- Paytm input row whose amount equals commission + gst (10 = 10 + 0). -/
def pRow10 : PaytmRow :=
  { transaction_date := .valid 1, settled_date := "d",
    transaction_type := "ACQUIRING", amount := .num 10, commission := .num 10,
    gst := .num 0 }

/-- The transaction `process_paytm_data` produces from `pRow10`. -/
def pTx10 : Txn :=
  { tdate := some 1, date := "d", platform := "PayTm", kind := "payment",
    orderAmt := some 10, fee := some 10, debit := some 0, credit := some 0,
    orderId := none, party1 := none, party2 := none, party3 := none }

/-- Paytm input row with an unparseable transaction_date. -/
def pRowBad : PaytmRow := { pRow10 with transaction_date := .bad "garbage" }

/-- Razorpay input row whose transaction_entity is neither "payment" nor
"refund". -/
def rzAdj : RazorpayRow :=
  { payment_captured_at := .valid 3, settled_at := "d",
    transaction_entity := "adjustment", amount := .num 5,
    fee_excl_tax := .num 1, tax := .num 0 }

/-- Ledger-sort example transaction with a set Order ID. -/
def txSome : Txn := { payTx with date := "01", orderId := some 5 }

/-- Ledger-sort example transaction identical to `txSome` on every sort-key
field except that its Order ID is unset. -/
def txNone : Txn := { payTx with date := "01" }

/-- Debit/credit shape of a normalized transaction: debit is gross - fee
for refunds and exactly 0 otherwise, credit is gross - fee for payments and
exactly 0 otherwise; in particular debit and credit are never both
different from 0, and for a kind outside {payment, refund} both are 0. -/
def debitCreditInv (t : Txn) : Prop :=
  (¬(t.debit ≠ some 0 ∧ t.credit ≠ some 0)) ∧
  (t.kind = "refund" → t.debit = optSub t.orderAmt t.fee ∧ t.credit = some 0) ∧
  (t.kind = "payment" → t.credit = optSub t.orderAmt t.fee ∧ t.debit = some 0) ∧
  (t.kind ≠ "refund" → t.kind ≠ "payment" → t.debit = some 0 ∧ t.credit = some 0)

theorem lexLt_trans : ∀ (as bs cs : List Char),
    lexLt as bs = true → lexLt bs cs = true → lexLt as cs = true := by
  intro as
  induction as with
  | nil =>
    intro bs cs h1 h2
    cases bs <;> cases cs <;> simp_all [lexLt]
  | cons a as ih =>
    intro bs cs h1 h2
    cases bs with
    | nil => simp [lexLt] at h1
    | cons b bs' =>
      cases cs with
      | nil => simp [lexLt] at h2
      | cons c cs' =>
        simp only [lexLt, Bool.or_eq_true, Bool.and_eq_true, decide_eq_true_eq] at h1 h2 ⊢
        rcases h1 with h1 | ⟨rfl, h1⟩
        · rcases h2 with h2 | ⟨rfl, h2⟩
          · exact Or.inl (Nat.lt_trans h1 h2)
          · exact Or.inl h1
        · rcases h2 with h2 | ⟨rfl, h2⟩
          · exact Or.inl h2
          · exact Or.inr ⟨rfl, ih bs' cs' h1 h2⟩

theorem char_toNat_inj {a b : Char} (h : a.toNat = b.toNat) : a = b := by
  have : a.val = b.val := by
    unfold Char.toNat at h
    exact UInt32.toNat.inj h
  exact Char.ext this

theorem lexLt_conn : ∀ (as bs : List Char),
    lexLt as bs = false → lexLt bs as = false → as = bs := by
  intro as
  induction as with
  | nil =>
    intro bs h1 _
    cases bs with
    | nil => rfl
    | cons b bs' => simp [lexLt] at h1
  | cons a as ih =>
    intro bs h1 h2
    cases bs with
    | nil => simp [lexLt] at h2
    | cons b bs' =>
      simp only [lexLt, Bool.or_eq_false_iff, Bool.and_eq_false_iff,
        decide_eq_false_iff_not] at h1 h2
      have hab : a = b := by
        apply char_toNat_inj
        exact Nat.le_antisymm (Nat.le_of_not_lt h2.1) (Nat.le_of_not_lt h1.1)
      subst hab
      have e1 : lexLt as bs' = false := by
        rcases h1.2 with h | h
        · exact absurd rfl h
        · exact h
      have e2 : lexLt bs' as = false := by
        rcases h2.2 with h | h
        · exact absurd rfl h
        · exact h
      rw [ih bs' e1 e2]

theorem strLt_trans (a b c : String) :
    strLt a b = true → strLt b c = true → strLt a c = true :=
  lexLt_trans a.data b.data c.data

theorem strLt_conn (a b : String) :
    strLt a b = false → strLt b a = false → a = b := by
  intro h1 h2
  have := lexLt_conn a.data b.data h1 h2
  cases a; cases b; congr

theorem optIdLe_trans : ∀ (a b c : Option Nat),
    optIdLe a b = true → optIdLe b c = true → optIdLe a c = true := by
  intro a b c h1 h2
  cases a <;> cases b <;> cases c <;> simp_all [optIdLe]
  all_goals omega

theorem optIdLe_total : ∀ (a b : Option Nat),
    optIdLe a b = true ∨ optIdLe b a = true := by
  intro a b
  cases a <;> cases b <;> simp [optIdLe]
  all_goals omega

theorem lexB_trans {α β : Type} [DecidableEq α] (ltA : α → α → Bool) (leB : β → β → Bool)
    (hlt : ∀ a b c, ltA a b = true → ltA b c = true → ltA a c = true)
    (hle : ∀ x y z, leB x y = true → leB y z = true → leB x z = true) :
    ∀ p q r, lexB ltA leB p q = true → lexB ltA leB q r = true →
      lexB ltA leB p r = true := by
  rintro ⟨a1, b1⟩ ⟨a2, b2⟩ ⟨a3, b3⟩ h1 h2
  simp only [lexB, Bool.or_eq_true, Bool.and_eq_true, decide_eq_true_eq] at h1 h2 ⊢
  rcases h1 with h1 | ⟨rfl, h1⟩
  · rcases h2 with h2 | ⟨rfl, h2⟩
    · exact Or.inl (hlt _ _ _ h1 h2)
    · exact Or.inl h1
  · rcases h2 with h2 | ⟨rfl, h2⟩
    · exact Or.inl h2
    · exact Or.inr ⟨rfl, hle _ _ _ h1 h2⟩

theorem lexB_total {α β : Type} [DecidableEq α] (ltA : α → α → Bool) (leB : β → β → Bool)
    (hconn : ∀ a b, ltA a b = false → ltA b a = false → a = b)
    (hle : ∀ x y, leB x y = true ∨ leB y x = true) :
    ∀ p q, lexB ltA leB p q = true ∨ lexB ltA leB q p = true := by
  rintro ⟨a1, b1⟩ ⟨a2, b2⟩
  simp only [lexB, Bool.or_eq_true, Bool.and_eq_true, decide_eq_true_eq]
  cases h1 : ltA a1 a2 with
  | true => exact Or.inl (Or.inl rfl)
  | false =>
    cases h2 : ltA a2 a1 with
    | true => exact Or.inr (Or.inl rfl)
    | false =>
      have h : a1 = a2 := hconn _ _ h1 h2
      subst h
      rcases hle b1 b2 with h | h
      · exact Or.inl (Or.inr ⟨rfl, h⟩)
      · exact Or.inr (Or.inr ⟨rfl, h⟩)

theorem keyLe_trans : ∀ p q r, keyLe p q = true → keyLe q r = true → keyLe p r = true :=
  lexB_trans _ _ strLt_trans
    (lexB_trans _ _ strLt_trans (lexB_trans _ _ strLt_trans optIdLe_trans))

theorem keyLe_total : ∀ p q, keyLe p q = true ∨ keyLe q p = true :=
  lexB_total _ _ strLt_conn
    (lexB_total _ _ strLt_conn (lexB_total _ _ strLt_conn optIdLe_total))

theorem claimedOf_append (k : String) (ts us : List Txn) :
    claimedOf k (ts ++ us) = claimedOf k ts ++ claimedOf k us :=
  List.filterMap_append ts us _

theorem mem_claimedOf {k : String} {n : Nat} {ts : List Txn} :
    n ∈ claimedOf k ts ↔ ∃ t ∈ ts, t.kind = k ∧ t.orderId = some n := by
  simp only [claimedOf, List.mem_filterMap]
  constructor
  · rintro ⟨t, ht, he⟩
    by_cases hk : t.kind = k
    · rw [if_pos hk] at he
      exact ⟨t, ht, hk, he⟩
    · rw [if_neg hk] at he
      exact absurd he (by simp)
  · rintro ⟨t, ht, hk, ho⟩
    exact ⟨t, ht, by rw [if_pos hk]; exact ho⟩

theorem contains_eq_mem (l : List Nat) (a : Nat) : l.contains a = true ↔ a ∈ l := by
  simp [List.contains]

theorem frameEq_refl (t : Txn) : frameEq t t :=
  ⟨rfl, rfl, rfl, rfl, rfl, rfl, rfl, rfl⟩

theorem annotate_frame (row : Txn) (s : ShopifyRow) : frameEq (annotate row s) row :=
  ⟨rfl, rfl, rfl, rfl, rfl, rfl, rfl, rfl⟩

theorem matchRow_frame (pool : List ShopifyRow) (st : MatchState) (row : Txn) :
    frameEq (matchOrderIdAndPartyInfo pool st row).1 row := by
  unfold matchOrderIdAndPartyInfo
  split
  · split
    · exact annotate_frame row _
    · exact frameEq_refl row
  · split
    · split
      · exact annotate_frame row _
      · exact frameEq_refl row
    · exact frameEq_refl row

theorem matchRow_cases (pool : List ShopifyRow) (st : MatchState) (row : Txn)
    (h : row.orderId = none) (t : Txn) (st' : MatchState)
    (he : matchOrderIdAndPartyInfo pool st row = (t, st')) :
    st'.paytmUsed = st.paytmUsed ++ claimedOf "payment" [t] ∧
    st'.razorpayUsed = st.razorpayUsed ++ claimedOf "refund" [t] ∧
    (∀ n, t.orderId = some n →
      (t.kind = "payment" ∧ st'.paytmUsed = st.paytmUsed ++ [n] ∧ n ∉ st.paytmUsed) ∨
      (t.kind = "refund" ∧ st'.razorpayUsed = st.razorpayUsed ++ [n] ∧
        n ∉ st.razorpayUsed)) ∧
    (st.paytmUsed.Nodup → st'.paytmUsed.Nodup) ∧
    (st.razorpayUsed.Nodup → st'.razorpayUsed.Nodup)
    := by
  unfold matchOrderIdAndPartyInfo at he
  split at he
  · rename_i hc
    split at he
    · rename_i s hfind
      injection he with h1 h2
      subst h1
      subst h2
      have hfresh : s.name ∉ st.paytmUsed := by
        have := List.find?_some hfind
        simp only [Bool.not_eq_true'] at this
        intro hm
        rw [(contains_eq_mem _ _).mpr hm] at this
        cases this
      refine ⟨?_, ?_, ?_, ?_, ?_⟩
      · simp [annotate, claimedOf, hc.1]
      · simp [annotate, claimedOf, hc.1]
      · intro n hn
        simp only [annotate] at hn
        injection hn with hn
        subst hn
        exact Or.inl ⟨hc.1, by simp [annotate, claimedOf, hc.1], hfresh⟩
      · intro hd
        simp only [annotate, claimedOf]
        simp [hc.1, List.nodup_append, hd, hfresh]
      · intro hd
        simpa [annotate, claimedOf, hc.1] using hd
    · injection he with h1 h2
      subst h1
      subst h2
      refine ⟨by simp [claimedOf, h], by simp [claimedOf, h], ?_, fun hd => hd, fun hd => hd⟩
      intro n hn
      rw [h] at hn
      cases hn
  · split at he
    · rename_i hc
      split at he
      · rename_i s hfind
        injection he with h1 h2
        subst h1
        subst h2
        have hfresh : s.name ∉ st.razorpayUsed := by
          have := List.find?_some hfind
          simp only [Bool.not_eq_true'] at this
          intro hm
          rw [(contains_eq_mem _ _).mpr hm] at this
          cases this
        refine ⟨?_, ?_, ?_, ?_, ?_⟩
        · simp [annotate, claimedOf, hc.1]
        · simp [annotate, claimedOf, hc.1]
        · intro n hn
          simp only [annotate] at hn
          injection hn with hn
          subst hn
          exact Or.inr ⟨hc.1, by simp [annotate, claimedOf, hc.1], hfresh⟩
        · intro hd
          simpa [annotate, claimedOf, hc.1] using hd
        · intro hd
          simp only [annotate, claimedOf]
          simp [hc.1, List.nodup_append, hd, hfresh]
      · injection he with h1 h2
        subst h1
        subst h2
        refine ⟨by simp [claimedOf, h], by simp [claimedOf, h], ?_, fun hd => hd, fun hd => hd⟩
        intro n hn
        rw [h] at hn
        cases hn
    · injection he with h1 h2
      subst h1
      subst h2
      refine ⟨by simp [claimedOf, h], by simp [claimedOf, h], ?_, fun hd => hd, fun hd => hd⟩
      intro n hn
      rw [h] at hn
      cases hn

theorem processRows_cons (pool : List ShopifyRow) (st : MatchState) (row : Txn)
    (rows : List Txn) :
    processRows pool st (row :: rows)
      = ((matchOrderIdAndPartyInfo pool st row).1 ::
          (processRows pool (matchOrderIdAndPartyInfo pool st row).2 rows).1,
         (processRows pool (matchOrderIdAndPartyInfo pool st row).2 rows).2) := rfl

theorem processRows_spec (pool : List ShopifyRow) :
    ∀ (rows : List Txn) (st : MatchState), (∀ r ∈ rows, r.orderId = none) →
    (processRows pool st rows).2.paytmUsed
        = st.paytmUsed ++ claimedOf "payment" (processRows pool st rows).1 ∧
    (processRows pool st rows).2.razorpayUsed
        = st.razorpayUsed ++ claimedOf "refund" (processRows pool st rows).1 ∧
    (∀ t ∈ (processRows pool st rows).1, ∀ n, t.orderId = some n →
      (t.kind = "payment" ∧ n ∈ (processRows pool st rows).2.paytmUsed) ∨
      (t.kind = "refund" ∧ n ∈ (processRows pool st rows).2.razorpayUsed)) ∧
    (st.paytmUsed.Nodup → (processRows pool st rows).2.paytmUsed.Nodup) ∧
    (st.razorpayUsed.Nodup → (processRows pool st rows).2.razorpayUsed.Nodup) := by
  intro rows
  induction rows with
  | nil =>
    intro st h
    refine ⟨by simp [processRows, claimedOf], by simp [processRows, claimedOf], ?_,
      fun hd => hd, fun hd => hd⟩
    intro t ht
    simp [processRows] at ht
  | cons row rows ih =>
    intro st h
    rcases hm : matchOrderIdAndPartyInfo pool st row with ⟨t, st1⟩
    have hrow := matchRow_cases pool st row (h row (List.mem_cons_self row rows)) t st1 hm
    have hih := ih st1 (fun r hr => h r (List.mem_cons_of_mem row hr))
    simp only [processRows_cons, hm]
    refine ⟨?_, ?_, ?_, ?_, ?_⟩
    · rw [hih.1, hrow.1,
        show t :: (processRows pool st1 rows).1 = [t] ++ (processRows pool st1 rows).1
          from rfl,
        claimedOf_append, List.append_assoc]
    · rw [hih.2.1, hrow.2.1,
        show t :: (processRows pool st1 rows).1 = [t] ++ (processRows pool st1 rows).1
          from rfl,
        claimedOf_append, List.append_assoc]
    · intro u hu n hn
      rcases List.mem_cons.mp hu with rfl | hu'
      · rcases hrow.2.2.1 n hn with ⟨hk, heq, _⟩ | ⟨hk, heq, _⟩
        · refine Or.inl ⟨hk, ?_⟩
          rw [hih.1, heq]
          exact List.mem_append_left _ (List.mem_append_right _ (List.mem_singleton_self n))
        · refine Or.inr ⟨hk, ?_⟩
          rw [hih.2.1, heq]
          exact List.mem_append_left _ (List.mem_append_right _ (List.mem_singleton_self n))
      · exact hih.2.2.1 u hu' n hn
    · exact fun hd => hih.2.2.2.1 (hrow.2.2.2.1 hd)
    · exact fun hd => hih.2.2.2.2 (hrow.2.2.2.2 hd)

theorem match_orders_eq (p r : List Txn) (pool : List ShopifyRow) :
    match_orders p r pool
      = ((processRows pool ⟨[], []⟩ p).1,
         (processRows pool (processRows pool ⟨[], []⟩ p).2 r).1,
         pool.filter (fun s =>
           !((finalState p r pool).paytmUsed.contains s.name) &&
           !((finalState p r pool).razorpayUsed.contains s.name))) := rfl

theorem match_orders_claims (p r : List Txn) (pool : List ShopifyRow)
    (hp : ∀ t ∈ p, t.orderId = none) (hr : ∀ t ∈ r, t.orderId = none) :
    (finalState p r pool).paytmUsed
        = claimedOf "payment" ((match_orders p r pool).1 ++ (match_orders p r pool).2.1) ∧
    (finalState p r pool).razorpayUsed
        = claimedOf "refund" ((match_orders p r pool).1 ++ (match_orders p r pool).2.1) ∧
    (finalState p r pool).paytmUsed.Nodup ∧
    (finalState p r pool).razorpayUsed.Nodup ∧
    (∀ t, t ∈ (match_orders p r pool).1 ∨ t ∈ (match_orders p r pool).2.1 →
      ∀ n, t.orderId = some n →
        (t.kind = "payment" ∧ n ∈ (finalState p r pool).paytmUsed) ∨
        (t.kind = "refund" ∧ n ∈ (finalState p r pool).razorpayUsed)) := by
  have h1 := processRows_spec pool p ⟨[], []⟩ hp
  have h2 := processRows_spec pool r (processRows pool ⟨[], []⟩ p).2 hr
  have e1 : (processRows pool ⟨[], []⟩ p).2.paytmUsed
      = claimedOf "payment" (processRows pool ⟨[], []⟩ p).1 := by
    rw [h1.1]; rfl
  have e2 : (processRows pool ⟨[], []⟩ p).2.razorpayUsed
      = claimedOf "refund" (processRows pool ⟨[], []⟩ p).1 := by
    rw [h1.2.1]; rfl
  refine ⟨?_, ?_, ?_, ?_, ?_⟩
  · show (processRows pool (processRows pool ⟨[], []⟩ p).2 r).2.paytmUsed = _
    rw [h2.1, e1, match_orders_eq, claimedOf_append]
  · show (processRows pool (processRows pool ⟨[], []⟩ p).2 r).2.razorpayUsed = _
    rw [h2.2.1, e2, match_orders_eq, claimedOf_append]
  · exact h2.2.2.2.1 (h1.2.2.2.1 List.nodup_nil)
  · exact h2.2.2.2.2 (h1.2.2.2.2 List.nodup_nil)
  · intro t ht n hn
    rcases ht with ht | ht
    · rcases h1.2.2.1 t ht n hn with ⟨hk, hmem⟩ | ⟨hk, hmem⟩
      · refine Or.inl ⟨hk, ?_⟩
        show n ∈ (processRows pool (processRows pool ⟨[], []⟩ p).2 r).2.paytmUsed
        rw [h2.1]
        exact List.mem_append_left _ hmem
      · refine Or.inr ⟨hk, ?_⟩
        show n ∈ (processRows pool (processRows pool ⟨[], []⟩ p).2 r).2.razorpayUsed
        rw [h2.2.1]
        exact List.mem_append_left _ hmem
    · exact h2.2.2.1 t ht n hn

theorem find?_min_name (p : ShopifyRow → Bool) :
    ∀ (l : List ShopifyRow), l.Pairwise shopifyNameLe →
    ∀ s, l.find? p = some s → ∀ c ∈ l, p c = true → s.name ≤ c.name := by
  intro l
  induction l with
  | nil =>
    intro _ s hs
    simp [List.find?] at hs
  | cons x xs ih =>
    intro hp s hs c hc hpc
    cases hpx : p x with
    | true =>
      rw [List.find?_cons_of_pos _ hpx] at hs
      injection hs with hs
      subst hs
      rcases List.mem_cons.mp hc with rfl | hmem
      · exact Nat.le_refl _
      · exact (List.pairwise_cons.mp hp).1 c hmem
    | false =>
      rw [List.find?_cons_of_neg _ (by simp [hpx])] at hs
      rcases List.mem_cons.mp hc with rfl | hmem
      · rw [hpx] at hpc
        cases hpc
      · exact ih (List.pairwise_cons.mp hp).2 s hs c hmem hpc

theorem processRows_frame (pool : List ShopifyRow) :
    ∀ (rows : List Txn) (st : MatchState),
    List.Forall₂ frameEq (processRows pool st rows).1 rows := by
  intro rows
  induction rows with
  | nil =>
    intro st
    exact List.Forall₂.nil
  | cons row rows ih =>
    intro st
    rw [processRows_cons]
    exact List.Forall₂.cons (matchRow_frame pool st row)
      (ih (matchOrderIdAndPartyInfo pool st row).2)

theorem matchRow_nomatch_payment (pool : List ShopifyRow) (st : MatchState) (row : Txn)
    (hk : row.kind = "payment")
    (hf : firstUnclaimed (matchingRows pool row) st.paytmUsed = none) :
    matchOrderIdAndPartyInfo pool st row = (row, st) := by
  unfold matchOrderIdAndPartyInfo
  split
  · rw [hf]
  · split
    · rename_i hc
      rw [hk] at hc
      exact absurd hc.1 (by decide)
    · rfl

theorem matchRow_nomatch_refund (pool : List ShopifyRow) (st : MatchState) (row : Txn)
    (hk : row.kind = "refund")
    (hf : firstUnclaimed (matchingRows pool row) st.razorpayUsed = none) :
    matchOrderIdAndPartyInfo pool st row = (row, st) := by
  unfold matchOrderIdAndPartyInfo
  split
  · rename_i hc
    rw [hk] at hc
    exact absurd hc.1 (by decide)
  · split
    · rw [hf]
    · rfl

theorem matchRow_other_kind (pool : List ShopifyRow) (st : MatchState) (row : Txn)
    (h1 : row.kind ≠ "payment") (h2 : row.kind ≠ "refund") :
    matchOrderIdAndPartyInfo pool st row = (row, st) := by
  unfold matchOrderIdAndPartyInfo
  split
  · rename_i hc
    exact absurd hc.1 h1
  · split
    · rename_i hc
      exact absurd hc.1 h2
    · rfl

theorem paytmRowTxn_shape (r : PaytmRow) (t : Txn) (h : paytmRowTxn r = Except.ok t) :
    t.kind = paytmTypeMap r.transaction_type ∧
    t.orderAmt = to_numeric r.amount ∧
    t.fee = optAdd (to_numeric r.commission) (to_numeric r.gst) ∧
    t.debit = (if t.kind = "refund" then optSub t.orderAmt t.fee else some 0) ∧
    t.credit = (if t.kind = "payment" then optSub t.orderAmt t.fee else some 0) ∧
    t.orderId = none := by
  unfold paytmRowTxn at h
  split at h
  · cases h
  · injection h with h
    subst h
    exact ⟨rfl, rfl, rfl, rfl, rfl, rfl⟩

theorem razorpayRowTxn_shape (r : RazorpayRow) :
    (razorpayRowTxn r).kind = r.transaction_entity ∧
    (razorpayRowTxn r).orderAmt = to_numeric r.amount ∧
    (razorpayRowTxn r).fee = optAdd (to_numeric r.fee_excl_tax) (to_numeric r.tax) ∧
    (razorpayRowTxn r).debit
      = (if (razorpayRowTxn r).kind = "refund"
          then optSub (razorpayRowTxn r).orderAmt (razorpayRowTxn r).fee else some 0) ∧
    (razorpayRowTxn r).credit
      = (if (razorpayRowTxn r).kind = "payment"
          then optSub (razorpayRowTxn r).orderAmt (razorpayRowTxn r).fee else some 0) ∧
    (razorpayRowTxn r).orderId = none :=
  ⟨rfl, rfl, rfl, rfl, rfl, rfl⟩

theorem process_paytm_mem :
    ∀ (rows : List PaytmRow) (out : List Txn), process_paytm_data rows = Except.ok out →
    ∀ t ∈ out, ∃ r ∈ rows, paytmRowTxn r = Except.ok t := by
  intro rows
  induction rows with
  | nil =>
    intro out hout t ht
    unfold process_paytm_data at hout
    injection hout with hout
    subst hout
    cases ht
  | cons r rs ih =>
    intro out hout t ht
    unfold process_paytm_data at hout
    split at hout
    · cases hout
    · rename_i u us h1 h2
      injection hout with hout
      subst hout
      rcases List.mem_cons.mp ht with rfl | hm
      · exact ⟨r, List.mem_cons_self r rs, h1⟩
      · obtain ⟨r2, hr2, he2⟩ := ih us h2 t hm
        exact ⟨r2, List.mem_cons_of_mem r hr2, he2⟩
    · cases hout

theorem process_paytm_length :
    ∀ (rows : List PaytmRow) (out : List Txn), process_paytm_data rows = Except.ok out →
    out.length = rows.length := by
  intro rows
  induction rows with
  | nil =>
    intro out hout
    unfold process_paytm_data at hout
    injection hout with hout
    subst hout
    rfl
  | cons r rs ih =>
    intro out hout
    unfold process_paytm_data at hout
    split at hout
    · cases hout
    · rename_i u us h1 h2
      injection hout with hout
      subst hout
      simp [ih us h2]
    · cases hout

theorem process_paytm_coerce :
    ∀ (rows : List PaytmRow) (out : List Txn), process_paytm_data rows = Except.ok out →
    List.Forall₂ (fun t r => t.orderAmt = to_numeric r.amount ∧
      t.fee = optAdd (to_numeric r.commission) (to_numeric r.gst)) out rows := by
  intro rows
  induction rows with
  | nil =>
    intro out hout
    unfold process_paytm_data at hout
    injection hout with h
    subst h
    exact List.Forall₂.nil
  | cons rr rs ih =>
    intro out hout
    unfold process_paytm_data at hout
    split at hout
    · cases hout
    · rename_i u us h1 h2
      injection hout with hout
      subst hout
      have hs := paytmRowTxn_shape rr u h1
      exact List.Forall₂.cons ⟨hs.2.1, hs.2.2.1⟩ (ih us h2)
    · cases hout

theorem paytmRowTxn_ok_iff (r : PaytmRow) :
    (∃ t, paytmRowTxn r = Except.ok t) ↔
    (∃ d, to_datetime_strict r.transaction_date = Except.ok d) := by
  unfold paytmRowTxn
  cases h : to_datetime_strict r.transaction_date with
  | error e => simp
  | ok d => simp

theorem process_paytm_ok_iff :
    ∀ (rows : List PaytmRow), (∃ out, process_paytm_data rows = Except.ok out) ↔
    (∀ r ∈ rows, ∃ d, to_datetime_strict r.transaction_date = Except.ok d) := by
  intro rows
  induction rows with
  | nil =>
    simp [process_paytm_data]
  | cons r rs ih =>
    constructor
    · rintro ⟨out, hout⟩ pr hpr
      unfold process_paytm_data at hout
      split at hout
      · cases hout
      · rename_i u us h1 h2
        rcases List.mem_cons.mp hpr with rfl | hm
        · exact (paytmRowTxn_ok_iff pr).mp ⟨u, h1⟩
        · exact ih.mp ⟨us, h2⟩ pr hm
      · cases hout
    · intro hall
      obtain ⟨t, ht⟩ := (paytmRowTxn_ok_iff r).mpr (hall r (List.mem_cons_self r rs))
      obtain ⟨ts, hts⟩ := ih.mpr (fun pr hm => hall pr (List.mem_cons_of_mem r hm))
      exact ⟨t :: ts, by unfold process_paytm_data; rw [ht, hts]⟩

theorem dc_shape (t : Txn)
    (hd : t.debit = (if t.kind = "refund" then optSub t.orderAmt t.fee else some 0))
    (hc : t.credit = (if t.kind = "payment" then optSub t.orderAmt t.fee else some 0)) :
    (¬(t.debit ≠ some 0 ∧ t.credit ≠ some 0)) ∧
    (t.kind = "refund" → t.debit = optSub t.orderAmt t.fee ∧ t.credit = some 0) ∧
    (t.kind = "payment" → t.credit = optSub t.orderAmt t.fee ∧ t.debit = some 0) ∧
    (t.kind ≠ "refund" → t.kind ≠ "payment" → t.debit = some 0 ∧ t.credit = some 0) := by
  by_cases h1 : t.kind = "refund"
  · have h2 : t.kind ≠ "payment" := by
      rw [h1]
      decide
    rw [if_pos h1] at hd
    rw [if_neg h2] at hc
    exact ⟨fun hcon => hcon.2 hc, fun _ => ⟨hd, hc⟩,
      fun hp => absurd hp h2, fun hr _ => absurd h1 hr⟩
  · rw [if_neg h1] at hd
    by_cases h2 : t.kind = "payment"
    · rw [if_pos h2] at hc
      exact ⟨fun hcon => hcon.1 hd, fun hr => absurd hr h1,
        fun _ => ⟨hc, hd⟩, fun _ hp => absurd h2 hp⟩
    · rw [if_neg h2] at hc
      exact ⟨fun hcon => hcon.1 hd, fun hr => absurd hr h1,
        fun hp => absurd hp h2, fun _ _ => ⟨hd, hc⟩⟩

/-- C1 counterexample: the claim sets are NOT private per source.  With one
candidate (order id 1) matching all rows, the PayTm payment claims order 1
and the Razorpay payment — which satisfies the same amount and date
equalities — is blocked by PayTm's claim and stays unmatched, so an order
id claimed while processing PayTm does block Razorpay. -/
theorem c1_counterexample :
    (match_orders [payTx] [payTxR] [cand1]).1.map (fun t => t.orderId) = [some 1] ∧
    (match_orders [payTx] [payTxR] [cand1]).2.1.map (fun t => t.orderId) = [none] ∧
    optEq cand1.total payTxR.orderAmt = true ∧
    dateEq cand1.paid_at payTxR.tdate = true := by
  decide

/-- C1 (amended): the claim sets are private per transaction kind
("payment" vs "refund") and shared across sources.  Generally, the final
payment claim set is one list shared by both sources (and likewise the
refund set); concretely, a PayTm payment's claim blocks a Razorpay payment
from order id 1, while a Razorpay refund still claims the same order id 1,
so two different sources match the same order id to two different
transactions. -/
theorem c1_theorem :
    ((match_orders [payTx] [payTxR, refTxR] [cand1]).1.map (fun t => t.orderId)
        = [some 1] ∧
     (match_orders [payTx] [payTxR, refTxR] [cand1]).2.1.map (fun t => t.orderId)
        = [none, some 1]) ∧
    (∀ p r pool, (∀ t ∈ p, t.orderId = none) → (∀ t ∈ r, t.orderId = none) →
      (finalState p r pool).paytmUsed
        = claimedOf "payment" ((match_orders p r pool).1 ++ (match_orders p r pool).2.1) ∧
      (finalState p r pool).razorpayUsed
        = claimedOf "refund"
            ((match_orders p r pool).1 ++ (match_orders p r pool).2.1)) := by
  refine ⟨by decide, ?_⟩
  intro p r pool hp hr
  have h := match_orders_claims p r pool hp hr
  exact ⟨h.1, h.2.1⟩

/-- Witness for the general part of the C1 theorem at a concrete run. -/
theorem c1_witness :
    (finalState [payTx] [] [cand1]).paytmUsed
      = claimedOf "payment"
          ((match_orders [payTx] [] [cand1]).1 ++ (match_orders [payTx] [] [cand1]).2.1) :=
  (c1_theorem.2 [payTx] [] [cand1] (by decide) (by decide)).1

/-- C2 counterexample: claimed order ids are NOT exclusive within a single
source.  A PayTm payment and a PayTm refund, processed in one run against a
single candidate with order id 1, both end up carrying order_ref 1, because
the payment claims through `paytm_used_names` while the refund checks
`razorpay_used_names`. -/
theorem c2_counterexample :
    (match_orders [payTx, refTxP] [] [cand1]).1.map (fun t => t.orderId)
      = [some 1, some 1] ∧
    payTx.platform = "PayTm" ∧ refTxP.platform = "PayTm" := by
  decide

/-- C2 (amended): claimed order ids are exclusive per transaction KIND
across the whole run, not per source: no two "payment" transactions in the
combined annotated output share an order id, and no two "refund"
transactions do — but a payment and a refund (even in the same source) may
share one. -/
theorem c2_theorem (p r : List Txn) (pool : List ShopifyRow)
    (hp : ∀ t ∈ p, t.orderId = none) (hr : ∀ t ∈ r, t.orderId = none) :
    (claimedOf "payment"
        ((match_orders p r pool).1 ++ (match_orders p r pool).2.1)).Nodup ∧
    (claimedOf "refund"
        ((match_orders p r pool).1 ++ (match_orders p r pool).2.1)).Nodup := by
  have h := match_orders_claims p r pool hp hr
  exact ⟨h.1 ▸ h.2.2.1, h.2.1 ▸ h.2.2.2.1⟩

/-- Witness for the C2 theorem at a concrete run. -/
theorem c2_witness :
    (claimedOf "payment"
        ((match_orders [payTx] [] [cand1]).1 ++ (match_orders [payTx] [] [cand1]).2.1)).Nodup ∧
    (claimedOf "refund"
        ((match_orders [payTx] [] [cand1]).1 ++ (match_orders [payTx] [] [cand1]).2.1)).Nodup :=
  c2_theorem [payTx] [] [cand1] (by decide) (by decide)

/-- C3 counterexample: "exactly one of debit and credit is nonzero" fails.
The Paytm row `pRow10` is a payment whose amount equals commission + gst,
so the produced transaction has debit = 0 AND credit = 0. -/
theorem c3_counterexample :
    process_paytm_data [pRow10] = Except.ok [pTx10] ∧
    pTx10.kind = "payment" ∧ pTx10.debit = some 0 ∧ pTx10.credit = some 0 := by
  refine ⟨rfl, rfl, rfl, rfl⟩

/-- C3 (amended): for every transaction produced by the normalizers, debit
equals gross - fee when kind = refund and is exactly 0 otherwise, credit
equals gross - fee when kind = payment and is exactly 0 otherwise; hence AT
MOST one of debit/credit differs from 0 (both are 0 when gross = fee or the
kind is outside {payment, refund}, and the matched side is missing when the
amount or fee is missing). -/
theorem c3_theorem :
    (∀ rows out, process_paytm_data rows = Except.ok out →
      ∀ t ∈ out, debitCreditInv t) ∧
    (∀ rows, ∀ t ∈ process_razorpay_data rows, debitCreditInv t) := by
  constructor
  · intro rows out hout t ht
    obtain ⟨r, _, hr⟩ := process_paytm_mem rows out hout t ht
    have hs := paytmRowTxn_shape r t hr
    exact dc_shape t hs.2.2.2.1 hs.2.2.2.2.1
  · intro rows t ht
    obtain ⟨r, _, hr⟩ := List.mem_map.mp ht
    subst hr
    have hs := razorpayRowTxn_shape r
    exact dc_shape (razorpayRowTxn r) hs.2.2.2.1 hs.2.2.2.2.1

/-- Witness for the C3 theorem at concrete normalizer outputs. -/
theorem c3_witness : debitCreditInv pTx10 ∧ debitCreditInv (razorpayRowTxn rzAdj) :=
  ⟨c3_theorem.1 [pRow10] [pTx10] rfl pTx10 (by decide),
   c3_theorem.2 [rzAdj] (razorpayRowTxn rzAdj) (by decide)⟩

/-- C4 counterexample: an unparseable date on a single row IS a fatal
error for Paytm.  One row with an unparseable transaction_date makes
`process_paytm_data` abort the whole run (pandas `to_datetime` without
`errors="coerce"` raises), instead of retaining the row with a missing
value. -/
theorem c4_counterexample :
    process_paytm_data [pRowBad]
      = Except.error "time data garbage does not match format" ∧
    pRowBad.amount = RawCell.num 10 := by
  exact ⟨rfl, rfl⟩

/-- C4 (amended): unparseable AMOUNTS are coerced to missing and the row is
retained in BOTH payment normalizers (`process_razorpay_data` keeps every
row with amount, fee and captured-at date coerced; on a successful
`process_paytm_data` run every row is retained with amount and fee
coerced), unparseable dates are coerced with the row retained for Razorpay
and Shopify (`process_shopify_data` never aborts and keeps every row whose
Total is present, with Paid at coerced), and a missing value never
satisfies an equality match; but `process_paytm_data` succeeds exactly
when every row's transaction_date parses — one unparseable Paytm date
aborts the whole run. -/
theorem c4_theorem :
    (∀ rows, (process_razorpay_data rows).length = rows.length) ∧
    (∀ r, (razorpayRowTxn r).orderAmt = to_numeric r.amount ∧
      (razorpayRowTxn r).fee = optAdd (to_numeric r.fee_excl_tax) (to_numeric r.tax) ∧
      (razorpayRowTxn r).tdate = to_datetime_coerce r.payment_captured_at) ∧
    (∀ rows out, process_paytm_data rows = Except.ok out →
      List.Forall₂ (fun t r => t.orderAmt = to_numeric r.amount ∧
        t.fee = optAdd (to_numeric r.commission) (to_numeric r.gst)) out rows) ∧
    (∀ rows, (∃ out, process_paytm_data rows = Except.ok out) ↔
      ∀ r ∈ rows, ∃ d, to_datetime_strict r.transaction_date = Except.ok d) ∧
    (∀ rows, (process_shopify_data rows).Perm
      ((rows.filter (fun r => r.total.isSome)).map
        (fun r => { name := r.name
                    total := r.total
                    billing_name := r.billing_name
                    billing_street := r.billing_street
                    billing_company := r.billing_company
                    paid_at := to_datetime_coerce r.paid_at }))) ∧
    (∀ x : Option Int, optEq none x = false ∧ optEq x none = false) ∧
    (∀ x : Option Nat, dateEq none x = false ∧ dateEq x none = false) := by
  refine ⟨?_, fun r => ⟨rfl, rfl, rfl⟩, process_paytm_coerce, process_paytm_ok_iff,
    ?_, ?_, ?_⟩
  · intro rows
    exact List.length_map rows razorpayRowTxn
  · intro rows
    exact List.perm_insertionSort shopifyNameLe _
  · intro x
    cases x <;> exact ⟨rfl, rfl⟩
  · intro x
    cases x <;> exact ⟨rfl, rfl⟩

/-- Witness for the C4 theorem at a concrete run. -/
theorem c4_witness :
    List.Forall₂ (fun t (r : PaytmRow) => t.orderAmt = to_numeric r.amount ∧
      t.fee = optAdd (to_numeric r.commission) (to_numeric r.gst)) [pTx10] [pRow10] ∧
    optEq none (some 3) = false :=
  ⟨c4_theorem.2.2.1 [pRow10] [pTx10] rfl, (c4_theorem.2.2.2.2.2.1 (some 3)).1⟩

/-- C5: after all sources are processed, the residual pool is exactly the
pool minus the candidates whose order id was claimed (by any source), and
no transaction in either annotated output references a residual candidate's
order id. -/
theorem c5_theorem (p r : List Txn) (pool : List ShopifyRow)
    (hp : ∀ t ∈ p, t.orderId = none) (hr : ∀ t ∈ r, t.orderId = none) :
    (match_orders p r pool).2.2
      = pool.filter (fun c =>
          !(((match_orders p r pool).1 ++ (match_orders p r pool).2.1).any
              (fun t => t.orderId == some c.name))) ∧
    (∀ c ∈ (match_orders p r pool).2.2, ∀ t,
      t ∈ (match_orders p r pool).1 ∨ t ∈ (match_orders p r pool).2.1 →
      t.orderId ≠ some c.name) := by
  have M := match_orders_claims p r pool hp hr
  have key : ∀ c : ShopifyRow,
      ((finalState p r pool).paytmUsed.contains c.name = false ∧
       (finalState p r pool).razorpayUsed.contains c.name = false) ↔
      (((match_orders p r pool).1 ++ (match_orders p r pool).2.1).any
          (fun t => t.orderId == some c.name) = false) := by
    intro c
    constructor
    · rintro ⟨h1, h2⟩
      cases hany : ((match_orders p r pool).1 ++ (match_orders p r pool).2.1).any
          (fun t => t.orderId == some c.name) with
      | false => rfl
      | true =>
        obtain ⟨t, ht, hbeq⟩ := List.any_eq_true.mp hany
        have ho : t.orderId = some c.name := by simpa using hbeq
        have ht2 : t ∈ (match_orders p r pool).1 ∨ t ∈ (match_orders p r pool).2.1 := by
          rcases List.mem_append.mp ht with h | h
          · exact Or.inl h
          · exact Or.inr h
        rcases M.2.2.2.2 t ht2 c.name ho with ⟨_, hm⟩ | ⟨_, hm⟩
        · rw [(contains_eq_mem _ _).mpr hm] at h1
          cases h1
        · rw [(contains_eq_mem _ _).mpr hm] at h2
          cases h2
    · intro hany
      constructor
      · cases h1 : (finalState p r pool).paytmUsed.contains c.name with
        | false => rfl
        | true =>
          have hm := (contains_eq_mem _ _).mp h1
          rw [M.1] at hm
          obtain ⟨t, ht, _, ho⟩ := mem_claimedOf.mp hm
          have : ((match_orders p r pool).1 ++ (match_orders p r pool).2.1).any
              (fun t => t.orderId == some c.name) = true :=
            List.any_eq_true.mpr ⟨t, ht, by simpa using ho⟩
          rw [this] at hany
          cases hany
      · cases h2 : (finalState p r pool).razorpayUsed.contains c.name with
        | false => rfl
        | true =>
          have hm := (contains_eq_mem _ _).mp h2
          rw [M.2.1] at hm
          obtain ⟨t, ht, _, ho⟩ := mem_claimedOf.mp hm
          have : ((match_orders p r pool).1 ++ (match_orders p r pool).2.1).any
              (fun t => t.orderId == some c.name) = true :=
            List.any_eq_true.mpr ⟨t, ht, by simpa using ho⟩
          rw [this] at hany
          cases hany
  constructor
  · rw [match_orders_eq]
    apply List.filter_congr
    intro c _
    show (!((finalState p r pool).paytmUsed.contains c.name) &&
          !((finalState p r pool).razorpayUsed.contains c.name))
        = !(((match_orders p r pool).1 ++ (match_orders p r pool).2.1).any
              (fun t => t.orderId == some c.name))
    cases hA : (finalState p r pool).paytmUsed.contains c.name with
    | true =>
      have hany : ((match_orders p r pool).1 ++ (match_orders p r pool).2.1).any
          (fun t => t.orderId == some c.name) = true := by
        cases hC : ((match_orders p r pool).1 ++ (match_orders p r pool).2.1).any
            (fun t => t.orderId == some c.name) with
        | true => rfl
        | false =>
          have := ((key c).mpr hC).1
          rw [hA] at this
          cases this
      rw [hany]
      simp
    | false =>
      cases hB : (finalState p r pool).razorpayUsed.contains c.name with
      | true =>
        have hany : ((match_orders p r pool).1 ++ (match_orders p r pool).2.1).any
            (fun t => t.orderId == some c.name) = true := by
          cases hC : ((match_orders p r pool).1 ++ (match_orders p r pool).2.1).any
              (fun t => t.orderId == some c.name) with
          | true => rfl
          | false =>
            have := ((key c).mpr hC).2
            rw [hB] at this
            cases this
        rw [hany]
        simp
      | false =>
        rw [(key c).mp ⟨hA, hB⟩]
        simp
  · intro c hcmem t ht ho
    rw [match_orders_eq] at hcmem
    have hf := (List.mem_filter.mp hcmem).2
    rw [Bool.and_eq_true, Bool.not_eq_true', Bool.not_eq_true'] at hf
    rcases M.2.2.2.2 t ht c.name ho with ⟨_, hm⟩ | ⟨_, hm⟩
    · rw [(contains_eq_mem _ _).mpr hm] at hf
      cases hf.1
    · rw [(contains_eq_mem _ _).mpr hm] at hf
      cases hf.2

/-- Witness for the C5 theorem at a concrete run. -/
theorem c5_witness :
    (match_orders [payTx] [] [cand1]).2.2
      = [cand1].filter (fun c =>
          !(((match_orders [payTx] [] [cand1]).1 ++ (match_orders [payTx] [] [cand1]).2.1).any
              (fun t => t.orderId == some c.name))) :=
  (c5_theorem [payTx] [] [cand1] (by decide) (by decide)).1

/-- C9: residual membership is decided by order id, not by candidate-row
identity — if a candidate's order id is in either claim set at the end of
the run, then EVERY pool row carrying that order id is excluded from the
residual pool. -/
theorem c9_theorem (p r : List Txn) (pool : List ShopifyRow) (c : ShopifyRow)
    (hclaimed : c.name ∈ (finalState p r pool).paytmUsed ∨
                c.name ∈ (finalState p r pool).razorpayUsed) :
    ∀ c2 ∈ pool, c2.name = c.name → c2 ∉ (match_orders p r pool).2.2 := by
  intro c2 _ hname hmem
  rw [match_orders_eq] at hmem
  have hf := (List.mem_filter.mp hmem).2
  rw [Bool.and_eq_true, Bool.not_eq_true', Bool.not_eq_true', hname] at hf
  rcases hclaimed with hm | hm
  · rw [(contains_eq_mem _ _).mpr hm] at hf
    cases hf.1
  · rw [(contains_eq_mem _ _).mpr hm] at hf
    cases hf.2

/-- Witness for the C9 theorem: with two pool rows sharing order id 1, a
claim on that id excludes the duplicate row from the residual as well. -/
theorem c9_witness : cand1dup ∉ (match_orders [payTx] [] [cand1, cand1dup]).2.2 :=
  c9_theorem [payTx] [] [cand1, cand1dup] cand1 (Or.inl (by decide)) cand1dup
    (by decide) rfl

/-- C6: the candidate pool built by `process_shopify_data` is sorted
ascending by order id, and on any pool sorted ascending by order id the
matcher's candidate selection (first matching candidate not yet claimed)
picks the unclaimed matching candidate with the LOWEST order id. -/
theorem c6_theorem :
    (∀ rows, (process_shopify_data rows).Pairwise shopifyNameLe) ∧
    (∀ pool row used s, pool.Pairwise shopifyNameLe →
      firstUnclaimed (matchingRows pool row) used = some s →
      ∀ c ∈ matchingRows pool row, c.name ∉ used → s.name ≤ c.name) := by
  haveI : IsTrans ShopifyRow shopifyNameLe := ⟨fun _ _ _ => Nat.le_trans⟩
  haveI : IsTotal ShopifyRow shopifyNameLe := ⟨fun a b => Nat.le_total a.name b.name⟩
  constructor
  · intro rows
    exact List.sorted_insertionSort shopifyNameLe _
  · intro pool row used s hsort hfind c hc hcu
    have hpair : (matchingRows pool row).Pairwise shopifyNameLe := hsort.filter _
    have hpc : (!(used.contains c.name)) = true := by
      cases h : used.contains c.name with
      | false => rfl
      | true => exact absurd ((contains_eq_mem _ _).mp h) hcu
    exact find?_min_name _ (matchingRows pool row) hpair s hfind c hc hpc

/-- Witness for the C6 theorem: among the two unclaimed matching candidates
with order ids 1 and 2, the selected one has the lower id. -/
theorem c6_witness : cand1.name ≤ cand2.name :=
  c6_theorem.2 [cand1, cand2] payTx [] cand1 (by decide) (by decide) cand2
    (by decide) (by decide)

/-- C7 counterexample: an unset Order ID does NOT sort first.  Two ledger
rows agreeing on Date, Platform and Type, one with Order ID unset and one
with Order ID 5, come out with the set Order ID first and the unset one
last (pandas' default na_position="last"), refuting absent-first order. -/
theorem c7_counterexample :
    txNone.orderId = none ∧ txSome.orderId = some 5 ∧
    txNone.date = txSome.date ∧ txNone.platform = txSome.platform ∧
    txNone.kind = txSome.kind ∧
    (combine_and_format_data [txNone] [txSome]).map (fun f => f.orderId)
      = [some 5, none] ∧
    (combine_and_format_data [txNone] [txSome]).map (fun f => f.srNo) = [1, 2] := by
  decide

/-- C7 (amended): `combine_and_format_data` sorts the merged ledger by the
composite key (Date, Platform, Type, Order ID) ascending with unset Order
ID sorting LAST (absent-last, pandas' default), assigns the dense 1-based
sequence numbers 1..N in sorted order, and its rows are a permutation of
the projections of the input transactions. -/
theorem c7_theorem (p r : List Txn) :
    (combine_and_format_data p r).map (fun f => f.srNo)
      = List.range' 1 (p ++ r).length ∧
    ((combine_and_format_data p r).map (fun f => { f with srNo := 0 })).Perm
      ((p ++ r).map (finalRow 0)) ∧
    (combine_and_format_data p r).Pairwise
      (fun f g => keyLe (f.date, f.platform, f.kind, f.orderId)
                        (g.date, g.platform, g.kind, g.orderId) = true) := by
  haveI : IsTrans Txn txnLe :=
    ⟨fun a b c h1 h2 => keyLe_trans (sortKey a) (sortKey b) (sortKey c) h1 h2⟩
  haveI : IsTotal Txn txnLe := ⟨fun a b => keyLe_total (sortKey a) (sortKey b)⟩
  refine ⟨?_, ?_, ?_⟩
  · show ((List.enumFrom 1 (List.insertionSort txnLe (p ++ r))).map
        (fun q => finalRow q.1 q.2)).map (fun f => f.srNo) = _
    rw [List.map_map]
    have he : ((fun f : FinalRow => f.srNo) ∘ (fun q : Nat × Txn => finalRow q.1 q.2))
        = Prod.fst := rfl
    rw [he, List.enumFrom_map_fst,
      List.Perm.length_eq (List.perm_insertionSort txnLe (p ++ r))]
  · show (((List.enumFrom 1 (List.insertionSort txnLe (p ++ r))).map
        (fun q => finalRow q.1 q.2)).map (fun f => { f with srNo := 0 })).Perm _
    rw [List.map_map]
    have he : ((fun f : FinalRow => { f with srNo := 0 })
          ∘ (fun q : Nat × Txn => finalRow q.1 q.2))
        = (finalRow 0) ∘ Prod.snd := rfl
    rw [he, ← List.map_map, List.enumFrom_map_snd]
    exact (List.perm_insertionSort txnLe (p ++ r)).map (finalRow 0)
  · have hs : (List.insertionSort txnLe (p ++ r)).Pairwise txnLe :=
      List.sorted_insertionSort txnLe (p ++ r)
    show ((List.enumFrom 1 (List.insertionSort txnLe (p ++ r))).map
        (fun q => finalRow q.1 q.2)).Pairwise _
    rw [List.pairwise_map]
    have h3 : ((List.enumFrom 1 (List.insertionSort txnLe (p ++ r))).map
        Prod.snd).Pairwise txnLe := by
      rw [List.enumFrom_map_snd]
      exact hs
    exact (List.pairwise_map.mp h3).imp (fun h => h)

/-- C8 counterexample: `process_razorpay_data` does not map event labels to
the canonical enum — a row whose transaction_entity is "adjustment" keeps
kind "adjustment", outside {payment, refund}. -/
theorem c8_counterexample :
    (process_razorpay_data [rzAdj]).map (fun t => t.kind) = ["adjustment"] ∧
    ("adjustment" : String) ≠ "payment" ∧ ("adjustment" : String) ≠ "refund" := by
  decide

/-- C8 (amended): only the Paytm normalizer maps its source labels
("ACQUIRING" to payment, "REFUND" to refund, any other label passed
through unchanged); the Razorpay normalizer copies transaction_entity
verbatim.  Output kinds therefore lie in {payment, refund} only when the
input labels do after this mapping. -/
theorem c8_theorem :
    (∀ rows, (process_razorpay_data rows).map (fun t => t.kind)
        = rows.map (fun r => r.transaction_entity)) ∧
    (∀ rows out, process_paytm_data rows = Except.ok out →
        out.map (fun t => t.kind)
          = rows.map (fun r => paytmTypeMap r.transaction_type)) ∧
    (paytmTypeMap "ACQUIRING" = "payment" ∧ paytmTypeMap "REFUND" = "refund") ∧
    (∀ s, s ≠ "ACQUIRING" → s ≠ "REFUND" → paytmTypeMap s = s) := by
  refine ⟨?_, ?_, by decide, ?_⟩
  · intro rows
    show (rows.map razorpayRowTxn).map (fun t => t.kind) = _
    rw [List.map_map]
    rfl
  · intro rows
    induction rows with
    | nil =>
      intro out hout
      unfold process_paytm_data at hout
      injection hout with h
      subst h
      rfl
    | cons rr rs ih =>
      intro out hout
      unfold process_paytm_data at hout
      split at hout
      · cases hout
      · rename_i u us h1 h2
        injection hout with hout
        subst hout
        have hk := (paytmRowTxn_shape rr u h1).1
        simp [hk, ih us h2]
      · cases hout
  · intro s h1 h2
    unfold paytmTypeMap
    rw [if_neg h1, if_neg h2]

/-- Witness for the C8 theorem at a concrete run. -/
theorem c8_witness :
    [pTx10].map (fun t => t.kind)
      = [pRow10].map (fun r => paytmTypeMap r.transaction_type) ∧
    paytmTypeMap "adjustment" = "adjustment" :=
  ⟨c8_theorem.2.1 [pRow10] [pTx10] rfl,
   c8_theorem.2.2.2 "adjustment" (by decide) (by decide)⟩

/-- C10: `match_orders` only ever changes the Order ID and the three Party
Information fields — every other field of every transaction row of both
outputs agrees with the input row in the same position — and a row for
which the row function finds no unclaimed matching candidate (or whose kind
triggers no branch) is returned entirely unchanged, state included. -/
theorem c10_theorem (pool : List ShopifyRow) (p r : List Txn) (st : MatchState) :
    List.Forall₂ frameEq (match_orders p r pool).1 p ∧
    List.Forall₂ frameEq (match_orders p r pool).2.1 r ∧
    (∀ row, row.kind = "payment" →
      firstUnclaimed (matchingRows pool row) st.paytmUsed = none →
      matchOrderIdAndPartyInfo pool st row = (row, st)) ∧
    (∀ row, row.kind = "refund" →
      firstUnclaimed (matchingRows pool row) st.razorpayUsed = none →
      matchOrderIdAndPartyInfo pool st row = (row, st)) ∧
    (∀ row, row.kind ≠ "payment" → row.kind ≠ "refund" →
      matchOrderIdAndPartyInfo pool st row = (row, st)) :=
  ⟨processRows_frame pool p ⟨[], []⟩,
   processRows_frame pool r (processRows pool ⟨[], []⟩ p).2,
   matchRow_nomatch_payment pool st,
   matchRow_nomatch_refund pool st,
   matchRow_other_kind pool st⟩

/-- Witness for the C10 theorem: with an empty pool nothing matches and the
row comes back entirely unchanged. -/
theorem c10_witness :
    List.Forall₂ frameEq (match_orders [payTx] [] []).1 [payTx] ∧
    matchOrderIdAndPartyInfo [] ⟨[], []⟩ payTx = (payTx, ⟨[], []⟩) :=
  ⟨(c10_theorem [] [payTx] [] ⟨[], []⟩).1,
   (c10_theorem [] [payTx] [] ⟨[], []⟩).2.2.1 payTx rfl rfl⟩
